import Mathlib

/-!
Verification of the seqr variant/tag JSON aggregation layer
(`seqr/views/utils/orm_to_json_utils.py` and `seqr/views/utils/variant_utils.py`).

The development shallowly embeds the read-side aggregation code:

* Django ORM objects reachable by attribute access are modelled by the
  inductive type `Obj`; attribute access (`getattr`) is `getattrE`, which can
  fail (Django's `ObjectDoesNotExist` raised by a relation descriptor is the
  `Obj.raises` marker), return Python `None` (`Obj.pnone`), or return a value.
* Python dicts keyed by strings are association lists (`Record`); `dictGet`,
  `dictSet` and `dictRemove` implement `d[k]` lookup, `d[k] = v`
  (overwrite-in-place, append when fresh -- CPython dict semantics) and
  `d.pop(k)`.
* The generic projection `_get_json_for_models` is split into the named
  stages of the source body: field projection (line 53), nested-field
  resolution (lines 54-64, `resolveNestedField`), the guid rename
  (lines 66-68, `applyGuidRename`), the created-by substitution
  (lines 69-70, `applyCreatedBy`) and the optional `process_result` hook.
* The saved-variant aggregation (`get_json_for_saved_variants_with_tags`)
  is embedded over an explicit relational store `DB`; ORM filters such as
  `VariantTag.objects.filter(saved_variants__id__in=ids).distinct()` become
  list filters over the store's distinct rows.
* External collaborators (the elasticsearch fetch, the redis client,
  `json.loads`, Django's `User.get_full_name`) are parameters.

Database prefetches (`prefetch_related_objects`) are pure performance hints
and have no observable effect on the computed JSON; they are not modelled.
-/

/-- Values of the Django object graph. `leaf` is a scalar attribute value
(strings stand in for all scalars), `node` is an object with named
attributes, `raises` marks a relation attribute whose descriptor raises
`ObjectDoesNotExist` when accessed, and `pnone` is Python `None`. -/
inductive Obj where
  | leaf (s : String)
  | node (attrs : List (String × Obj))
  | raises
  | pnone
deriving Repr

/-- Python dicts with string keys and JSON-ish values; `none` is JSON null. -/
abbrev Record := List (String × Option Obj)

/-- Association-list lookup with decidable key equality (Python `d.get(k)`
returning `none` when the key is absent). -/
def dictGet {κ ν : Type} [DecidableEq κ] : List (κ × ν) → κ → Option ν
  | [], _ => none
  | p :: rest, k => if p.1 = k then some p.2 else dictGet rest k

/-- Python `d[k] = v`: overwrite in place when the key exists, append when
it is fresh (CPython dicts preserve insertion order). -/
def dictSet {κ ν : Type} [DecidableEq κ] (r : List (κ × ν)) (k : κ) (v : ν) :
    List (κ × ν) :=
  if (dictGet r k).isSome then
    r.map (fun p => if p.1 = k then (k, v) else p)
  else r ++ [(k, v)]

/-- Key removal, the record part of Python `d.pop(k, default)`. -/
def dictRemove {κ ν : Type} [DecidableEq κ] : List (κ × ν) → κ → List (κ × ν)
  | [], _ => []
  | p :: rest, k => if p.1 = k then dictRemove rest k else p :: dictRemove rest k

/-- Python truthiness of an embedded value: `None` and the empty string are
falsy; model instances (nodes) are truthy. -/
def objTruthy : Obj → Bool
  | .leaf s => !(s = "")
  | .node _ => true
  | .raises => true
  | .pnone => false

/-- Truthiness of an optional value (`none` is Python `None`, falsy). -/
def optTruthy : Option Obj → Bool
  | some o => objTruthy o
  | none => false

/-- Django attribute access. Looking up a declared attribute yields its
value (`pnone` becomes Python `None`); an attribute marked `raises`, or an
undeclared one, raises (`Except.error`), standing for `ObjectDoesNotExist`
on a relation whose row is gone. -/
def getattrE (o : Obj) (f : String) : Except Unit (Option Obj) :=
  match o with
  | .node attrs =>
    match dictGet attrs f with
    | some .raises => .error ()
    | some .pnone => .ok none
    | some v => .ok (some v)
    | none => .error ()
  | _ => .error ()

/-- Attribute access on a plain (non-relation) column, which never raises in
the source paths modelled here; errors collapse to `None`. -/
def attrOr (o : Obj) (f : String) : Option Obj :=
  match getattrE o f with
  | .ok v => v
  | .error _ => none

/-- Python `hasattr(o, f)` for the column attributes used by the source. -/
def hasattrB (o : Obj) (f : String) : Bool :=
  match o with
  | .node attrs => (dictGet attrs f).isSome
  | _ => false

/-- Python `a or b`. -/
def pyOr (a b : Option Obj) : Option Obj :=
  if optTruthy a then a else b

/-- Modelled from the spec: `_to_camel_case` is imported from
`seqr/views/utils/json_utils.py`, which is not among the provided source
files. The spec states the Entity Accessor converts snake_case field names
to camelCase; this is the standard conversion on single underscores. -/
def camelChars : List Char → List Char
  | '_' :: c :: rest => c.toUpper :: camelChars rest
  | c :: rest => c :: camelChars rest
  | [] => []

/-- Modelled from the spec: snake_case to camelCase field-name conversion. -/
def _to_camel_case (s : String) : String :=
  String.mk (camelChars s.toList)

/-- Underscore join used for the derived nested-field output key
(`'_'.join(nested_field['fields'])`, orm_to_json_utils.py line 64). -/
def joinUnderscore : List String → String
  | [] => ""
  | [s] => s
  | s :: rest => s ++ "_" ++ joinUnderscore rest

/-- Static stand-in for a Django model class: its name and the field
manifests declared on `Meta` (`json_fields`, `internal_json_fields`). -/
structure ModelClass where
  name : String
  json_fields : List String
  internal_json_fields : List String := []

/-- Entry of the `nested_fields` argument of `_get_json_for_models`:
a dotted relation path, an optional caller-supplied override value and an
optional explicit output key. -/
structure NestedField where
  fields : List String
  value : Option Obj := none
  key : Option String := none

/-- Field list assembled at orm_to_json_utils.py lines 39-43: the class
manifest, plus internal fields for staff users, plus caller extras. -/
def fieldsFor (cls : ModelClass) (user_is_staff : Bool)
    (additional_model_fields : List String) : List String :=
  cls.json_fields ++ (if user_is_staff then cls.internal_json_fields else [])
    ++ additional_model_fields

/-- Field projection of one model (line 53):
`{_to_camel_case(field): getattr(model, field) for field in fields}`.
A raising `getattr` propagates out of the comprehension. -/
def projectFields (m : Obj) (fields : List String) : Except Unit Record :=
  fields.foldlM (fun r f => do
    let v ← getattrE m f
    pure (dictSet r (_to_camel_case f) v)) []

/-- One hop of the nested-field traversal (lines 58-62):
`field_value = getattr(field_value, field) if field_value else None`,
with `ObjectDoesNotExist` caught and turned into `None`. -/
def nestedHop (fv : Option Obj) (f : String) : Option Obj :=
  match fv with
  | some o =>
    if objTruthy o then
      match getattrE o f with
      | .ok v => v
      | .error _ => none
    else none
  | none => none

/-- Output key of a nested field (line 64):
`nested_field.get('key', _to_camel_case('_'.join(nested_field['fields'])))`. -/
def nestedKey (nf : NestedField) : String :=
  match nf.key with
  | some k => k
  | none => _to_camel_case (joinUnderscore nf.fields)

/-- Nested-field value (lines 55-62): a truthy caller-supplied override
replaces the traversal; otherwise the relation chain is walked hop by hop
starting from the model. -/
def resolveNestedField (m : Obj) (nf : NestedField) : Option Obj :=
  if optTruthy nf.value then nf.value
  else nf.fields.foldl nestedHop (some m)

/-- Attachment of all nested fields onto the record (lines 54-64). -/
def applyNestedFields (m : Obj) (nested : List NestedField) (r : Record) : Record :=
  nested.foldl (fun r nf => dictSet r (nestedKey nf) (resolveNestedField m nf)) r

/-- Field projection followed by nested-field resolution: everything the
source does to a model's record before the guid rename (lines 53-64). -/
def projectAndNest (cls : ModelClass) (user_is_staff : Bool)
    (additional_model_fields : List String) (nested : List NestedField)
    (m : Obj) : Except Unit Record := do
  let base ← projectFields m (fieldsFor cls user_is_staff additional_model_fields)
  pure (applyNestedFields m nested base)

/-- Type-specific guid key (line 67):
`'{}{}Guid'.format(model_class.__name__[0].lower(), model_class.__name__[1:])`. -/
def guidKeyFor (name : String) : String :=
  String.mk ((name.toList.take 1).map Char.toLower ++ name.toList.drop 1
    ++ "Guid".toList)

/-- Truthiness of `result.get(k)` on a record. -/
def recTruthy (r : Record) (k : String) : Bool :=
  optTruthy ((dictGet r k).getD none)

/-- Guid rename (lines 66-68): when `result.get('guid')` is truthy, the
generic `guid` key is popped and its value re-inserted under the
caller-supplied `guid_key` or the type-specific default. -/
def applyGuidRename (cls : ModelClass) (guid_key : Option String) (r : Record) :
    Record :=
  if recTruthy r "guid" then
    dictSet (dictRemove r "guid") (guid_key.getD (guidKeyFor cls.name))
      ((dictGet r "guid").getD none)
  else r

/-- Created-by substitution (lines 69-70): a truthy `createdBy` value is
replaced by its display rendering (`get_full_name() or email`, a method of
the external Django `User`, passed in as `render`). -/
def applyCreatedBy (render : Obj → Option Obj) (r : Record) : Record :=
  if recTruthy r "createdBy" then
    dictSet r "createdBy"
      (match (dictGet r "createdBy").getD none with
       | some u => render u
       | none => none)
  else r

/-- JSON record of a single model: the body of the `for model in models`
loop of `_get_json_for_models` (lines 52-73). -/
def _get_json_for_models_row (cls : ModelClass) (user_is_staff : Bool)
    (additional_model_fields : List String) (nested : List NestedField)
    (guid_key : Option String) (render : Obj → Option Obj)
    (process_result : Option (Record → Obj → Record)) (m : Obj) :
    Except Unit Record := do
  let r ← projectAndNest cls user_is_staff additional_model_fields nested m
  let r := applyGuidRename cls guid_key r
  let r := applyCreatedBy render r
  pure (match process_result with
        | some f => f r m
        | none => r)

/-- Embedding of `_get_json_for_models` (orm_to_json_utils.py lines 22-75).
An empty model list short-circuits to `[]` (line 35); otherwise every model
is projected in order. The model class is passed explicitly (the source
reads it off `type(models[0])`). -/
def _get_json_for_models (cls : ModelClass) (models : List Obj)
    (nested : List NestedField) (user_is_staff : Bool)
    (process_result : Option (Record → Obj → Record))
    (guid_key : Option String) (additional_model_fields : List String)
    (render : Obj → Option Obj) : Except Unit (List Record) :=
  if models.isEmpty then .ok []
  else models.mapM
    (_get_json_for_models_row cls user_is_staff additional_model_fields nested
      guid_key render process_result)

/-- Embedding of `_get_case_review_status_modified_by`
(orm_to_json_utils.py lines 243-244):
`modified_by.email or modified_by.username if hasattr(modified_by, 'email')
else modified_by`. -/
def _get_case_review_status_modified_by (modified_by : Option Obj) : Option Obj :=
  match modified_by with
  | some o =>
    if hasattrB o "email" then pyOr (attrOr o "email") (attrOr o "username")
    else modified_by
  | none => modified_by

/-- Embedding of `_load_phenotips_data` (lines 246-253): falsy input gives
`None`; otherwise `json.loads` (external, passed in as `loads`, already
wrapped so that a parse failure is logged and yields `None`) is applied. -/
def _load_phenotips_data (loads : String → Option Obj) (ph : Option Obj) :
    Option Obj :=
  if optTruthy ph then
    match ph with
    | some (.leaf s) => loads s
    | _ => none
  else none

/-- Python `x.guid if x else None` on an optional related model. -/
def guidIfTruthy (x : Option Obj) : Option Obj :=
  if optTruthy x then
    match x with
    | some o => attrOr o "guid"
    | none => none
  else none

/-- Python `x.individual_id if x else None` on an optional related model. -/
def individualIdIfTruthy (x : Option Obj) : Option Obj :=
  if optTruthy x then
    match x with
    | some o => attrOr o "individual_id"
    | none => none
  else none

/-- Embedding of the `_process_result` closure of `_get_json_for_individuals`
(orm_to_json_utils.py lines 255-270). The `result['phenotipsData']`,
`result['displayName']` and `result['individualId']` subscripts raise
`KeyError` when the key is absent, hence the `Except`; `mother` and `father`
are popped with default `None`. -/
def individuals_process_result (loads : String → Option Obj)
    (sample_guids : Obj → Option Obj) (add_sample_guids_field : Bool)
    (r : Record) (individual : Obj) : Except Unit Record := do
  let mother : Option Obj := (dictGet r "mother").getD none
  let r := dictRemove r "mother"
  let father : Option Obj := (dictGet r "father").getD none
  let r := dictRemove r "father"
  let crb : Option Obj := (dictGet r "caseReviewStatusLastModifiedBy").getD none
  let ph ← match dictGet r "phenotipsData" with
    | some v => Except.ok v
    | none => Except.error ()
  let dn ← match dictGet r "displayName" with
    | some v => Except.ok v
    | none => Except.error ()
  let iid ← match dictGet r "individualId" with
    | some v => Except.ok v
    | none => Except.error ()
  let r := dictSet r "caseReviewStatusLastModifiedBy"
    (_get_case_review_status_modified_by crb)
  let r := dictSet r "phenotipsData" (_load_phenotips_data loads ph)
  let r := dictSet r "maternalGuid" (guidIfTruthy mother)
  let r := dictSet r "paternalGuid" (guidIfTruthy father)
  let r := dictSet r "maternalId" (individualIdIfTruthy mother)
  let r := dictSet r "paternalId" (individualIdIfTruthy father)
  let r := dictSet r "displayName" (pyOr dn iid)
  pure (if add_sample_guids_field then
          dictSet r "sampleGuids" (sample_guids individual)
        else r)

/-! ## Saved-variant aggregation (`get_json_for_saved_variants_with_tags`)

The aggregation claims concern the cross-referencing logic of
orm_to_json_utils.py lines 374-561, not the generic field projection, so the
relevant rows and their produced JSON dicts are embedded as typed records
whose fields are exactly the dict keys the source produces or reads.
ORM queries run against an explicit relational store `DB` holding the
distinct rows of each table; `.distinct()` on the m2m-join filters is
reflected by each matching row appearing exactly once in the filter result.
-/

/-- Project row (`seqr.models.Project`): guid and genome version, the fields
the aggregation layer reads. -/
structure Project where
  guid : String
  genome_version : String
deriving DecidableEq, Repr

/-- Family row with its project relation. -/
structure Family where
  guid : String
  project : Project
deriving DecidableEq, Repr

/-- SavedVariant row (`seqr.models.SavedVariant`): primary key, guid, owning
family, and the variant-identity columns. -/
structure SavedVariant where
  id : Nat
  guid : String
  family : Family
  variant_id : String
  xpos : Nat
  ref : String
  alt : String
deriving DecidableEq, Repr

/-- VariantTag row with its `saved_variants` many-to-many association,
stored as the associated SavedVariant primary keys. -/
structure VariantTag where
  id : Nat
  guid : String
  name : String
  category : String
  savedVariantIds : List Nat
deriving DecidableEq, Repr

/-- VariantNote row with its `saved_variants` many-to-many association. -/
structure VariantNote where
  id : Nat
  guid : String
  note : String
  savedVariantIds : List Nat
deriving DecidableEq, Repr

/-- VariantFunctionalData row with its `saved_variants` m2m association. -/
structure VariantFunctionalData where
  id : Nat
  guid : String
  functional_data_tag : String
  savedVariantIds : List Nat
deriving DecidableEq, Repr

/-- The relational store: the distinct rows of each table. -/
structure DB where
  savedVariants : List SavedVariant
  tags : List VariantTag
  notes : List VariantNote
  functionalData : List VariantFunctionalData
deriving Repr

/-- Guids of the SavedVariant rows associated to an annotation
(`[variant.guid for variant in tag.saved_variants.all()]`). -/
def variantGuidsFor (db : DB) (ids : List Nat) : List String :=
  (db.savedVariants.filter (fun v => ids.contains v.id)).map (fun v => v.guid)

/-- Base saved-variant JSON produced by `get_json_for_saved_variants`
(lines 374-392): `variantGuid` (the renamed guid), `variantId` (always
present, since `variant_id` is in the SavedVariant `json_fields` manifest,
so the chrom-pos fallback branch at lines 384-386 is dead here) and the
singleton `familyGuids` list (line 387). -/
structure SavedVariantJson where
  variantGuid : String
  variantId : String
  familyGuids : List String
deriving DecidableEq, Repr

/-- Embedding of `get_json_for_saved_variants` (lines 374-392), restricted
to the fields the aggregation reads. -/
def get_json_for_saved_variants (saved_variants : List SavedVariant) :
    List SavedVariantJson :=
  saved_variants.map (fun v =>
    { variantGuid := v.guid, variantId := v.variant_id,
      familyGuids := [v.family.guid] })

/-- Tag JSON produced by `get_json_for_variant_tags` (lines 493-507):
renamed guid key `tagGuid`, the nested tag-type fields and the associated
variant guids. -/
structure TagJson where
  tagGuid : String
  name : String
  category : String
  variantGuids : List String
deriving DecidableEq, Repr

/-- Embedding of `get_json_for_variant_tags` (lines 493-507). -/
def get_json_for_variant_tags (db : DB) (tags : List VariantTag) : List TagJson :=
  tags.map (fun t =>
    { tagGuid := t.guid, name := t.name, category := t.category,
      variantGuids := variantGuidsFor db t.savedVariantIds })

/-- Note JSON produced by `get_json_for_variant_notes` (lines 546-561). -/
structure NoteJson where
  noteGuid : String
  note : String
  variantGuids : List String
deriving DecidableEq, Repr

/-- Embedding of `get_json_for_variant_notes` (lines 546-561) with
`add_variant_guids=True`, as called by the aggregator. -/
def get_json_for_variant_notes (db : DB) (notes : List VariantNote) :
    List NoteJson :=
  notes.map (fun n =>
    { noteGuid := n.guid, note := n.note,
      variantGuids := variantGuidsFor db n.savedVariantIds })

/-- Functional-data JSON produced by
`get_json_for_variant_functional_data_tags` (lines 510-530): renamed guid
key `tagGuid`, the tag name and the associated variant guids. -/
structure FunctionalDataJson where
  tagGuid : String
  name : String
  variantGuids : List String
deriving DecidableEq, Repr

/-- Embedding of `get_json_for_variant_functional_data_tags`
(lines 510-530). -/
def get_json_for_variant_functional_data_tags (db : DB)
    (tags : List VariantFunctionalData) : List FunctionalDataJson :=
  tags.map (fun t =>
    { tagGuid := t.guid, name := t.functional_data_tag,
      variantGuids := variantGuidsFor db t.savedVariantIds })

/-- The per-variant aggregated record of `savedVariantsByGuid`: the base
variant JSON extended with `tagGuids`, `functionalDataGuids` and `noteGuids`
(line 411: `dict(tagGuids=[], functionalDataGuids=[], noteGuids=[],
**variant)`). -/
structure VariantJson where
  variantGuid : String
  variantId : String
  familyGuids : List String
  tagGuids : List String
  functionalDataGuids : List String
  noteGuids : List String
deriving DecidableEq, Repr

/-- Wraps a base saved-variant JSON with empty annotation-guid lists
(lines 410-413 and 448-451). -/
def initVariantJson (b : SavedVariantJson) : VariantJson :=
  { variantGuid := b.variantGuid, variantId := b.variantId,
    familyGuids := b.familyGuids, tagGuids := [], functionalDataGuids := [],
    noteGuids := [] }

/-- Embedding of `VariantTag.objects.filter(saved_variants__id__in=ids)
.distinct()` (line 418): the distinct tag rows whose m2m association
intersects the id set. -/
def tagsIntersecting (db : DB) (ids : List Nat) : List VariantTag :=
  db.tags.filter (fun t => t.savedVariantIds.any (fun i => ids.contains i))

/-- Embedding of the corresponding filter over VariantFunctionalData
(line 427). -/
def functionalDataIntersecting (db : DB) (ids : List Nat) :
    List VariantFunctionalData :=
  db.functionalData.filter (fun t => t.savedVariantIds.any (fun i => ids.contains i))

/-- Embedding of the corresponding filter over VariantNote (line 436). -/
def notesIntersecting (db : DB) (ids : List Nat) : List VariantNote :=
  db.notes.filter (fun n => n.savedVariantIds.any (fun i => ids.contains i))

/-- Embedding of `SavedVariant.objects.filter(guid__in=missing_guids)`
(line 450). `missing_guids` is a Python set used only through membership, so
it is carried as a list and queried with `contains`. -/
def savedVariantsWithGuidIn (db : DB) (guids : List String) : List SavedVariant :=
  db.savedVariants.filter (fun v => guids.contains v.guid)

/-- Body of the inner grouping loop (lines 420-424 and its two twins): one
associated variant guid either updates the live per-variant record through
`upd` (when the guid keys an entry of `variants_by_guid`), or is added to
the missing set. -/
def annStep (upd : String → VariantJson → VariantJson) (ag : String)
    (st : List (String × VariantJson) × List String) (vg : String) :
    List (String × VariantJson) × List String :=
  if (dictGet st.1 vg).isSome then
    (st.1.map (fun p => if p.1 = vg then (p.1, upd ag p.2) else p), st.2)
  else (st.1, st.2 ++ [vg])

/-- One grouping loop of the aggregator (each of lines 419-424, 429-434 and
437-442): for every annotation, every associated variant guid is processed
by `annStep`. The annotations are presented as (annotation guid, associated
variant guids) pairs, exactly the two dict entries the loops read. -/
def groupAnnGuids (upd : String → VariantJson → VariantJson)
    (anns : List (String × List String))
    (st : List (String × VariantJson) × List String) :
    List (String × VariantJson) × List String :=
  anns.foldl (fun st ann => ann.2.foldl (annStep upd ann.1) st) st

/-- Appends a tag guid (line 422: `...['tagGuids'].append(tag['tagGuid'])`). -/
def appendTagGuid (tg : String) (v : VariantJson) : VariantJson :=
  { v with tagGuids := v.tagGuids ++ [tg] }

/-- Appends a functional-data guid (line 432). -/
def appendFunctionalDataGuid (tg : String) (v : VariantJson) : VariantJson :=
  { v with functionalDataGuids := v.functionalDataGuids ++ [tg] }

/-- Appends a note guid (line 440). -/
def appendNoteGuid (ng : String) (v : VariantJson) : VariantJson :=
  { v with noteGuids := v.noteGuids ++ [ng] }

/-- The initial `variants_by_guid` mapping (lines 410-413). -/
def initialVariantsByGuid (saved_variants : List SavedVariant) :
    List (String × VariantJson) :=
  (get_json_for_saved_variants saved_variants).map
    (fun b => (b.variantGuid, initVariantJson b))

/-- The fetched tag JSON list (line 418). -/
def fetchedTags (db : DB) (saved_variant_ids : List Nat) : List TagJson :=
  get_json_for_variant_tags db (tagsIntersecting db saved_variant_ids)

/-- The fetched functional-data JSON list (lines 426-428). -/
def fetchedFunctionalData (db : DB) (saved_variant_ids : List Nat) :
    List FunctionalDataJson :=
  get_json_for_variant_functional_data_tags db
    (functionalDataIntersecting db saved_variant_ids)

/-- The fetched note JSON list (line 436). -/
def fetchedNotes (db : DB) (saved_variant_ids : List Nat) : List NoteJson :=
  get_json_for_variant_notes db (notesIntersecting db saved_variant_ids)

/-- State of `variants_by_guid` and `missing_guids` after the three grouping
loops (lines 415-442), in source order: tags, then functional data, then
notes. -/
def annotatedState (db : DB) (saved_variants : List SavedVariant) :
    List (String × VariantJson) × List String :=
  let saved_variant_ids := saved_variants.map (fun v => v.id)
  let st := (initialVariantsByGuid saved_variants, [])
  let st := groupAnnGuids appendTagGuid
    ((fetchedTags db saved_variant_ids).map (fun t => (t.tagGuid, t.variantGuids))) st
  let st := groupAnnGuids appendFunctionalDataGuid
    ((fetchedFunctionalData db saved_variant_ids).map
      (fun t => (t.tagGuid, t.variantGuids))) st
  groupAnnGuids appendNoteGuid
    ((fetchedNotes db saved_variant_ids).map (fun n => (n.noteGuid, n.variantGuids))) st

/-- The aggregated response of `get_json_for_saved_variants_with_tags` for
`discovery_tags_query=None` (the guard at line 460 is then skipped), with
the four guid-keyed mappings of lines 453-458 as association lists. -/
structure SVResponse where
  variantTagsByGuid : List (String × TagJson)
  variantNotesByGuid : List (String × NoteJson)
  variantFunctionalDataByGuid : List (String × FunctionalDataJson)
  savedVariantsByGuid : List (String × VariantJson)
deriving DecidableEq, Repr

/-- Embedding of `get_json_for_saved_variants_with_tags`
(orm_to_json_utils.py lines 407-458) with `discovery_tags_query=None`.
After the grouping loops, `variants_by_guid` keeps only variants with at
least one note or tag guid (lines 444-446); when `include_missing_variants`
is set and the missing set is non-empty, the missing variants are fetched
by guid and added with empty annotation lists (lines 447-451; `dict.update`
appends them, their guids being fresh by construction of the missing set). -/
def get_json_for_saved_variants_with_tags (db : DB)
    (saved_variants : List SavedVariant) (include_missing_variants : Bool) :
    SVResponse :=
  let saved_variant_ids := saved_variants.map (fun v => v.id)
  let tags := fetchedTags db saved_variant_ids
  let functional_data := fetchedFunctionalData db saved_variant_ids
  let notes := fetchedNotes db saved_variant_ids
  let st := annotatedState db saved_variants
  let variants_by_guid := st.1.filter
    (fun p => !p.2.noteGuids.isEmpty || !p.2.tagGuids.isEmpty)
  let variants_by_guid :=
    if include_missing_variants && !st.2.isEmpty then
      variants_by_guid ++
        (get_json_for_saved_variants (savedVariantsWithGuidIn db st.2)).map
          (fun b => (b.variantGuid, initVariantJson b))
    else variants_by_guid
  { variantTagsByGuid := tags.map (fun t => (t.tagGuid, t)),
    variantNotesByGuid := notes.map (fun n => (n.noteGuid, n)),
    variantFunctionalDataByGuid := functional_data.map (fun t => (t.tagGuid, t)),
    savedVariantsByGuid := variants_by_guid }

/-! ## variant_utils.py -/

/-- Embedding of `get_variant_key` (variant_utils.py lines 76-77):
`'{}-{}-{}_{}'.format(xpos, ref, alt, genomeVersion)`. -/
def get_variant_key (xpos : Nat) (ref alt genomeVersion : String) : String :=
  toString xpos ++ "-" ++ ref ++ "-" ++ alt ++ "_" ++ genomeVersion

/-- The discovery-tag overlay key computed for a SavedVariant row
(orm_to_json_utils.py lines 483-486): `get_variant_key` applied to the
project genome version and the row's variant-identity columns. -/
def discoveryVariantKey (v : SavedVariant) : String :=
  get_variant_key v.xpos v.ref v.alt v.family.project.genome_version

/-- Embedding of `MAX_VARIANTS_FETCH` (variant_utils.py line 20). -/
def MAX_VARIANTS_FETCH : Nat := 1000

/-- Python `sorted` on strings, as applied to the variant-id set at
variant_utils.py line 38 (ascending insertion sort; `sorted` is stable,
which is irrelevant on a deduplicated list). -/
def insertSorted (a : String) : List String → List String
  | [] => [a]
  | b :: t => if a ≤ b then a :: b :: t else b :: insertSorted a t

/-- Ascending sort of a string list (Python `sorted`). -/
def sortStrings (l : List String) : List String :=
  l.foldr insertSorted []

/-- The sorted distinct variant-id list of variant_utils.py lines 31-38:
`variant_ids` is built as a set while iterating the saved variants, then
sorted. -/
def variantIdsSorted (saved_variants : List SavedVariant) : List String :=
  sortStrings ((saved_variants.map (fun v => v.variant_id)).dedup)

/-- Embedding of the batch slicing at variant_utils.py line 41:
`[variant_ids[i:i+MAX_VARIANTS_FETCH] for i in
range(0, len(variant_ids), MAX_VARIANTS_FETCH)]`. -/
def sliceBatches {α : Type} (l : List α) (k : Nat) : List (List α) :=
  (List.range' 0 ((l.length + k - 1) / k) k).map (fun i => (l.drop i).take k)

/-- Result entry of the external variant fetch
(`get_es_variants_for_variant_ids`): at least `variantId` and
`familyGuids`. -/
structure VariantFetchResult where
  variantId : String
  familyGuids : List String
deriving DecidableEq, Repr

/-- Embedding of the batched fetch loop (variant_utils.py lines 40-42):
batches are fetched sequentially and the results concatenated in batch
order. The external elasticsearch query is the parameter `fetch`. -/
def fetchVariantsJson (fetch : List String → List VariantFetchResult)
    (variant_ids : List String) : List VariantFetchResult :=
  (sliceBatches variant_ids MAX_VARIANTS_FETCH).foldl
    (fun acc sub_var_ids => acc ++ fetch sub_var_ids) []

/-- Embedding of `update_project_saved_variant_json`
(variant_utils.py lines 22-52). The project-scoped queryset is the
`saved_variants` argument; an empty queryset short-circuits to `[]`
(lines 27-28). The saved-variant map keyed by `(variant_id, family guid)`
is a Python dict (last row wins on key collision), and the returned value
is the list of updated saved-variant guids. -/
def update_project_saved_variant_json
    (fetch : List String → List VariantFetchResult)
    (saved_variants : List SavedVariant) : List String :=
  if saved_variants.isEmpty then []
  else
    let saved_variants_map := saved_variants.foldl
      (fun m v => dictSet m (v.variant_id, v.family.guid) v) []
    let variants_json := fetchVariantsJson fetch (variantIdsSorted saved_variants)
    variants_json.foldl (fun acc var =>
      acc ++ var.familyGuids.filterMap (fun family_guid =>
        (dictGet saved_variants_map (var.variantId, family_guid)).map
          (fun sv => sv.guid))) []

/-- Abstract redis client capability: each operation either returns a value
or fails (connection failure, timeout, or any other `redis` exception). -/
structure CacheClient where
  connect : Except String Unit
  keysForPattern : String → Except String (List String)
  del : List String → Except String Nat

/-- The try-block body of `reset_cached_search_results`
(variant_utils.py lines 56-71): connect, collect the keys to delete
(per-result-guid patterns when a project is given, the global pattern
otherwise, plus the index-metadata pattern when requested), delete them when
any, and produce the log line. Any step may fail. -/
def resetCachedSearchResultsBody (c : CacheClient)
    (project_result_guids : Option (List String))
    (reset_index_metadata : Bool) : Except String String := do
  c.connect
  let keys_to_delete ← match project_result_guids with
    | some result_guids =>
      result_guids.foldlM (fun acc guid => do
        let ks ← c.keysForPattern ("search_results__" ++ guid ++ "*")
        pure (acc ++ ks)) ([] : List String)
    | none => c.keysForPattern "search_results__*"
  let keys_to_delete ← if reset_index_metadata then do
      let ks ← c.keysForPattern "index_metadata__*"
      pure (keys_to_delete ++ ks)
    else pure keys_to_delete
  if keys_to_delete.isEmpty then
    pure "No cached results to reset"
  else do
    let _ ← c.del keys_to_delete
    pure ("Reset " ++ toString keys_to_delete.length ++ " cached results")

/-- Embedding of `reset_cached_search_results` (variant_utils.py
lines 55-73): the whole body is wrapped in `try/except Exception`, the
failure being logged (`logger.error`) and swallowed. The returned value is
the log line produced, never a propagated exception. -/
def reset_cached_search_results (c : CacheClient)
    (project_result_guids : Option (List String))
    (reset_index_metadata : Bool) : Except String String :=
  match resetCachedSearchResultsBody c project_result_guids reset_index_metadata with
  | .ok msg => .ok msg
  | .error e => .ok ("Unable to reset cached search results: " ++ e)

/-! ## Concrete fixtures used by witnesses and counterexamples -/

/-- A cache client whose every operation fails with a connection error. -/
def cFail : CacheClient :=
  { connect := Except.error "connection refused",
    keysForPattern := fun _ => Except.error "connection refused",
    del := fun _ => Except.error "connection refused" }

/-- Fixture project. -/
def pFix : Project := { guid := "P1", genome_version := "37" }

/-- Fixture families in the same project. -/
def famF1 : Family := { guid := "F1", project := pFix }

/-- Second fixture family. -/
def famF2 : Family := { guid := "F2", project := pFix }

/-- Fixture rows for the C4 scenario: three SavedVariant rows sharing one
variant id across two families. -/
def sv1 : SavedVariant :=
  { id := 1, guid := "SV1", family := famF1, variant_id := "1-1000-A-G",
    xpos := 1001000, ref := "A", alt := "G" }

/-- Second row of the shared-variant scenario (other family). -/
def sv2 : SavedVariant :=
  { id := 2, guid := "SV2", family := famF2, variant_id := "1-1000-A-G",
    xpos := 1001000, ref := "A", alt := "G" }

/-- Third row of the shared-variant scenario. -/
def sv3 : SavedVariant :=
  { id := 3, guid := "SV3", family := famF2, variant_id := "1-1000-A-G",
    xpos := 1001000, ref := "A", alt := "G" }

/-- The single Tier 1 tag of the C4 scenario, attached to the first row
only. -/
def tagTier1 : VariantTag :=
  { id := 1, guid := "VT1", name := "Tier 1 - Novel gene and phenotype",
    category := "CMG Discovery Tags", savedVariantIds := [1] }

/-- Store for the C4 scenario. -/
def db4 : DB :=
  { savedVariants := [sv1, sv2, sv3], tags := [tagTier1], notes := [],
    functionalData := [] }

/-- A SavedVariant row present in the store but outside the C1 witness
input set, referenced by the witness tag. -/
def svM : SavedVariant :=
  { id := 99, guid := "SVM", family := famF2, variant_id := "2-2000-C-T",
    xpos := 2002000, ref := "C", alt := "T" }

/-- Tag referencing both the input row and the missing row. -/
def tagW : VariantTag :=
  { id := 7, guid := "VT7", name := "Review", category := "",
    savedVariantIds := [1, 99] }

/-- Store for the C1 and C5 witnesses. -/
def dbW : DB :=
  { savedVariants := [sv1, svM], tags := [tagW], notes := [],
    functionalData := [] }

/-- A functional-data record referencing a variant with no tags or notes
(the C10 example). -/
def fdOnly : VariantFunctionalData :=
  { id := 5, guid := "FD1", functional_data_tag := "Biochemical Function",
    savedVariantIds := [1] }

/-- Store in which the only annotation of the input variant is functional
data. -/
def dbFD : DB :=
  { savedVariants := [sv1], tags := [], notes := [], functionalData := [fdOnly] }

/-- Model-class fixture for the C2 witness. -/
def clsFam : ModelClass := { name := "Family", json_fields := ["guid"] }

/-- Model fixture for the C2 witness. -/
def mFam : Obj := Obj.node [("guid", Obj.leaf "F000001")]

/-- Record fixture for the C3 witness: an individual record as produced for
a row whose mother and father foreign keys were set to null by the deletion
of the referenced individuals (on_delete=SET_NULL). -/
def r3 : Record :=
  [("individualId", some (Obj.leaf "I1")), ("displayName", some (Obj.leaf "")),
   ("phenotipsData", none), ("mother", none), ("father", none),
   ("caseReviewStatusLastModifiedBy", none)]

/-- Trivial external json parser for the C3 witness. -/
def loads0 : String → Option Obj := fun _ => none

/-- Trivial sample-guid accessor for the C3 witness. -/
def sg0 : Obj → Option Obj := fun _ => none

/-- Individual model fixture for the C3 witness. -/
def ind3 : Obj := Obj.node []

/-- First row of the C6 witness: same genomic identity as `vKeyB` but a
different family, row guid and primary key. -/
def vKeyA : SavedVariant :=
  { id := 11, guid := "SVA", family := famF1, variant_id := "1-1000-A-G",
    xpos := 1001000, ref := "A", alt := "G" }

/-- Second row of the C6 witness. -/
def vKeyB : SavedVariant :=
  { id := 12, guid := "SVB", family := famF2, variant_id := "1-1000-A-G",
    xpos := 1001000, ref := "A", alt := "G" }

/-- Functional-data JSON record of the C10 example. -/
def fdJson1 : FunctionalDataJson :=
  { tagGuid := "FD1", name := "Biochemical Function", variantGuids := ["SV1"] }

/-- Grouped variant record of the C5 witness store. -/
def vJsonW : VariantJson :=
  { variantGuid := "SV1", variantId := "1-1000-A-G", familyGuids := ["F1"],
    tagGuids := ["VT7"], functionalDataGuids := [], noteGuids := [] }

/-- Grouped variant record of the C4 scenario's tagged row. -/
def vJson4 : VariantJson :=
  { variantGuid := "SV1", variantId := "1-1000-A-G", familyGuids := ["F1"],
    tagGuids := ["VT1"], functionalDataGuids := [], noteGuids := [] }

/-! ## Dictionary lemmas -/

theorem dictGet_append {κ ν : Type} [DecidableEq κ] (r s : List (κ × ν)) (k : κ) :
    dictGet (r ++ s) k = (dictGet r k).or (dictGet s k) := by
  induction r with
  | nil => simp [dictGet]
  | cons p rest ih =>
    by_cases h : p.1 = k <;> simp [dictGet, h, ih]

theorem dictGet_map_update {κ ν : Type} [DecidableEq κ] (m : List (κ × ν))
    (vg : κ) (f : ν → ν) (g : κ) :
    dictGet (m.map (fun p => if p.1 = vg then (p.1, f p.2) else p)) g =
      if g = vg then (dictGet m g).map f else dictGet m g := by
  induction m with
  | nil => by_cases h : g = vg <;> simp [dictGet, h]
  | cons p rest ih =>
    by_cases hp : p.1 = vg
    · subst hp
      by_cases hg : p.1 = g
      · subst hg
        simp [dictGet, ih]
      · have hg' : ¬g = p.1 := fun h => hg h.symm
        simp [dictGet, hg, hg', ih]
    · by_cases hg : p.1 = g
      · subst hg
        simp [dictGet, hp]
      · have hg' : ¬g = p.1 := fun h => hg h.symm
        simp [dictGet, hp, hg, ih]

theorem dictGet_dictSet {κ ν : Type} [DecidableEq κ] (r : List (κ × ν))
    (k k' : κ) (v : ν) :
    dictGet (dictSet r k v) k' = if k' = k then some v else dictGet r k' := by
  unfold dictSet
  cases hdg : dictGet r k with
  | some w =>
    simp only [hdg, Option.isSome_some, if_true]
    rw [show (fun p : κ × ν => if p.1 = k then (k, v) else p)
        = (fun p : κ × ν => if p.1 = k then (p.1, (fun _ : ν => v) p.2) else p) from by
      funext p
      by_cases hp : p.1 = k <;> simp [hp]]
    rw [dictGet_map_update r k (fun _ => v) k']
    by_cases hk : k' = k
    · subst hk
      simp [hdg]
    · simp [hk]
  | none =>
    simp only [hdg, Option.isSome_none, Bool.false_eq_true, if_false]
    rw [dictGet_append]
    by_cases hk : k' = k
    · subst hk
      simp [hdg, dictGet]
    · have hk' : ¬k = k' := fun h => hk h.symm
      simp [dictGet, hk, hk']

theorem dictGet_dictRemove {κ ν : Type} [DecidableEq κ] (r : List (κ × ν))
    (k k' : κ) :
    dictGet (dictRemove r k) k' = if k' = k then none else dictGet r k' := by
  induction r with
  | nil => by_cases hk : k' = k <;> simp [dictGet, dictRemove, hk]
  | cons p rest ih =>
    by_cases hp : p.1 = k
    · subst hp
      by_cases hk : k' = p.1
      · subst hk
        simp [dictRemove, ih]
      · have hk' : ¬p.1 = k' := fun h => hk h.symm
        simp [dictRemove, dictGet, hk, hk', ih]
    · by_cases hg : p.1 = k'
      · subst hg
        have hk : ¬p.1 = k := hp
        simp [dictRemove, dictGet, hp, hk, fun h : p.1 = k => hp h]
      · have hg' : ¬k' = p.1 := fun h => hg h.symm
        simp [dictRemove, dictGet, hp, hg, ih]

theorem dictGet_mem {κ ν : Type} [DecidableEq κ] (r : List (κ × ν)) (k : κ)
    (v : ν) (h : dictGet r k = some v) : (k, v) ∈ r := by
  induction r with
  | nil => simp [dictGet] at h
  | cons p rest ih =>
    rcases p with ⟨a, b⟩
    by_cases hp : a = k
    · subst hp
      simp [dictGet] at h
      subst h
      exact List.mem_cons_self _ _
    · simp [dictGet, hp] at h
      exact List.mem_cons_of_mem _ (ih h)

theorem dictGet_isSome_iff_mem_keys {κ ν : Type} [DecidableEq κ]
    (r : List (κ × ν)) (k : κ) :
    (dictGet r k).isSome = true ↔ k ∈ r.map Prod.fst := by
  induction r with
  | nil => simp [dictGet]
  | cons p rest ih =>
    rcases p with ⟨a, b⟩
    by_cases hp : a = k
    · subst hp
      simp [dictGet]
    · have hp' : ¬k = a := fun h => hp h.symm
      simp [dictGet, hp, hp', ih]

/-! ## Batch-slicing lemmas -/

theorem sliceBatches_def {α : Type} (l : List α) (k : Nat) :
    sliceBatches l k
      = (List.range' 0 ((l.length + k - 1) / k) k).map (fun i => (l.drop i).take k) :=
  rfl

theorem sliceBatches_nil {α : Type} (k : Nat) (hk : 0 < k) :
    sliceBatches ([] : List α) k = [] := by
  have h : (([] : List α).length + k - 1) / k = 0 := by
    simp only [List.length_nil, Nat.zero_add]
    exact Nat.div_eq_of_lt (by omega)
  rw [sliceBatches_def, h]
  rfl

theorem sliceBatches_cons {α : Type} (l : List α) (k : Nat) (hk : 0 < k)
    (hl : l ≠ []) :
    sliceBatches l k = l.take k :: sliceBatches (l.drop k) k := by
  have hn : 0 < l.length := List.length_pos.mpr hl
  have hm : (l.length + k - 1) / k = ((l.drop k).length + k - 1) / k + 1 := by
    rw [List.length_drop]
    have h1 : l.length + k - 1 = (l.length - 1) + k := by omega
    rw [h1, Nat.add_div_right _ hk]
    rcases Nat.le_total k l.length with hkn | hnk
    · have h2 : l.length - k + k - 1 = l.length - 1 := by omega
      rw [h2]
    · have h2 : l.length - k = 0 := by omega
      have h3 : (l.length - 1) / k = 0 := Nat.div_eq_of_lt (by omega)
      have h4 : (0 + k - 1) / k = 0 := Nat.div_eq_of_lt (by omega)
      rw [h2, h3, h4]
  have hshift : List.range' (0 + k) (((l.drop k).length + k - 1) / k) k
      = (List.range' 0 (((l.drop k).length + k - 1) / k) k).map (fun x => k + x) := by
    rw [Nat.zero_add]
    simpa using (List.map_add_range' k 0 (((l.drop k).length + k - 1) / k) k).symm
  have hfun : ((fun i => (l.drop i).take k) ∘ (fun x => k + x))
      = (fun i => ((l.drop k).drop i).take k) := by
    funext i
    simp [Function.comp, List.drop_drop]
  rw [sliceBatches_def l k, hm, List.range'_succ, List.map_cons, List.drop_zero,
    hshift, List.map_map, hfun, sliceBatches_def (l.drop k) k]

theorem sliceBatches_flatten_aux {α : Type} (k : Nat) (hk : 0 < k) :
    ∀ (n : Nat) (l : List α), l.length ≤ n → (sliceBatches l k).flatten = l := by
  intro n
  induction n with
  | zero =>
    intro l hl
    have h0 : l = [] := List.eq_nil_of_length_eq_zero (Nat.le_zero.mp hl)
    subst h0
    rw [sliceBatches_nil k hk]
    rfl
  | succ n ih =>
    intro l hl
    by_cases h : l = []
    · subst h
      rw [sliceBatches_nil k hk]
      rfl
    · rw [sliceBatches_cons l k hk h, List.flatten_cons,
        ih (l.drop k) (by
          rw [List.length_drop]
          have h1 : 0 < l.length := List.length_pos.mpr h
          omega),
        List.take_append_drop]

theorem sliceBatches_flatten {α : Type} (l : List α) (k : Nat) (hk : 0 < k) :
    (sliceBatches l k).flatten = l :=
  sliceBatches_flatten_aux k hk l.length l le_rfl

theorem sliceBatches_length_le {α : Type} (l : List α) (k : Nat) :
    ∀ b ∈ sliceBatches l k, b.length ≤ k := by
  intro b hb
  rw [sliceBatches_def] at hb
  rcases List.mem_map.mp hb with ⟨i, _, rfl⟩
  simp [List.length_take]

theorem sliceBatches_count {α : Type} (l : List α) (k : Nat) :
    (sliceBatches l k).length = (l.length + k - 1) / k := by
  rw [sliceBatches_def, List.length_map, List.length_range']

theorem foldl_append_flatten {α β : Type} (f : α → List β) (bs : List α)
    (acc : List β) :
    bs.foldl (fun a b => a ++ f b) acc = acc ++ (bs.map f).flatten := by
  induction bs generalizing acc with
  | nil => simp
  | cons b t ih => simp [ih, List.append_assoc]

/-! ## Empty-query lemmas -/

theorem tagsIntersecting_nil (db : DB) : tagsIntersecting db [] = [] := by
  unfold tagsIntersecting
  rw [List.filter_eq_nil_iff]
  intro t _
  simp

theorem functionalDataIntersecting_nil (db : DB) :
    functionalDataIntersecting db [] = [] := by
  unfold functionalDataIntersecting
  rw [List.filter_eq_nil_iff]
  intro t _
  simp

theorem notesIntersecting_nil (db : DB) : notesIntersecting db [] = [] := by
  unfold notesIntersecting
  rw [List.filter_eq_nil_iff]
  intro t _
  simp

/-! ## Claims -/

/-- Claim C6: for any two SavedVariant rows (in any families) with equal
genome version, xpos, ref and alt, the discovery-tag overlay key computed
for them is the same string; the key is a function of the
(genomeVersion, xpos, ref, alt) tuple only, not of the family whose row
produced it. -/
theorem claim_C6_discovery_key_stable (v1 v2 : SavedVariant)
    (hx : v1.xpos = v2.xpos) (hr : v1.ref = v2.ref) (ha : v1.alt = v2.alt)
    (hg : v1.family.project.genome_version = v2.family.project.genome_version) :
    discoveryVariantKey v1 = discoveryVariantKey v2
    ∧ discoveryVariantKey v1
        = get_variant_key v1.xpos v1.ref v1.alt v1.family.project.genome_version := by
  refine ⟨?_, rfl⟩
  unfold discoveryVariantKey get_variant_key
  rw [hx, hr, ha, hg]

/-- Witness for claim C6: two rows of different families sharing the
genomic identity get the same overlay key. -/
theorem claim_C6_witness : discoveryVariantKey vKeyA = discoveryVariantKey vKeyB :=
  (claim_C6_discovery_key_stable vKeyA vKeyB rfl rfl rfl rfl).1

/-- Claim C7: when there are more variant ids than `MAX_VARIANTS_FETCH`,
the fetch splits the sorted distinct id list into consecutive batches of at
most 1000 ids (at least two of them), fetches them sequentially, and
concatenates the results in batch order;
`update_project_saved_variant_json` applies exactly this batched fetch to
its sorted distinct variant-id list. -/
theorem claim_C7_batched_fetch (ids : List String)
    (fetch : List String → List VariantFetchResult)
    (h : MAX_VARIANTS_FETCH < ids.length) :
    (∀ b ∈ sliceBatches ids MAX_VARIANTS_FETCH, b.length ≤ MAX_VARIANTS_FETCH)
    ∧ (sliceBatches ids MAX_VARIANTS_FETCH).flatten = ids
    ∧ 2 ≤ (sliceBatches ids MAX_VARIANTS_FETCH).length
    ∧ fetchVariantsJson fetch ids
        = ((sliceBatches ids MAX_VARIANTS_FETCH).map fetch).flatten
    ∧ (∀ svs : List SavedVariant, svs.isEmpty = false →
        update_project_saved_variant_json fetch svs
          = (fetchVariantsJson fetch (variantIdsSorted svs)).foldl
              (fun acc var =>
                acc ++ var.familyGuids.filterMap (fun family_guid =>
                  (dictGet (svs.foldl (fun m v =>
                      dictSet m (v.variant_id, v.family.guid) v) [])
                    (var.variantId, family_guid)).map (fun sv => sv.guid))) []) := by
  have hk : 0 < MAX_VARIANTS_FETCH := by decide
  refine ⟨sliceBatches_length_le ids MAX_VARIANTS_FETCH,
    sliceBatches_flatten ids MAX_VARIANTS_FETCH hk, ?_, ?_, ?_⟩
  · rw [sliceBatches_count, Nat.le_div_iff_mul_le hk]
    omega
  · unfold fetchVariantsJson
    rw [foldl_append_flatten, List.nil_append]
  · intro svs hsvs
    unfold update_project_saved_variant_json
    rw [hsvs]
    rfl

/-- Witness for claim C7: a 1001-id list splits into batches whose
concatenation gives back the whole list. -/
theorem claim_C7_witness :
    (sliceBatches (List.replicate 1001 "v") MAX_VARIANTS_FETCH).flatten
      = List.replicate 1001 "v" :=
  (claim_C7_batched_fetch (List.replicate 1001 "v") (fun _ => [])
    (by rw [List.length_replicate]; norm_num [MAX_VARIANTS_FETCH])).2.1

/-- Claim C8: every projection and aggregation function returns an empty
container on an empty input collection, without raising: the generic model
projection, the saved-variant projection, the tag aggregator and the
saved-variant-json updater. -/
theorem claim_C8_empty_inputs :
    (∀ (cls : ModelClass) (nested : List NestedField) (staff : Bool)
        (pr : Option (Record → Obj → Record)) (gk : Option String)
        (add : List String) (render : Obj → Option Obj),
        _get_json_for_models cls [] nested staff pr gk add render = Except.ok [])
    ∧ get_json_for_saved_variants [] = []
    ∧ (∀ (db : DB) (inc : Bool),
        get_json_for_saved_variants_with_tags db [] inc
          = { variantTagsByGuid := [], variantNotesByGuid := [],
              variantFunctionalDataByGuid := [], savedVariantsByGuid := [] })
    ∧ (∀ fetch : List String → List VariantFetchResult,
        update_project_saved_variant_json fetch [] = []) := by
  refine ⟨?_, rfl, ?_, ?_⟩
  · intro cls nested staff pr gk add render
    rfl
  · intro db inc
    have h1 : fetchedTags db [] = [] := by
      unfold fetchedTags
      rw [tagsIntersecting_nil]
      rfl
    have h2 : fetchedFunctionalData db [] = [] := by
      unfold fetchedFunctionalData
      rw [functionalDataIntersecting_nil]
      rfl
    have h3 : fetchedNotes db [] = [] := by
      unfold fetchedNotes
      rw [notesIntersecting_nil]
      rfl
    have h4 : annotatedState db [] = ([], []) := by
      unfold annotatedState
      simp only [List.map_nil, h1, h2, h3]
      rfl
    unfold get_json_for_saved_variants_with_tags
    simp only [List.map_nil, h1, h2, h3, h4, List.map_nil]
    simp
  · intro fetch
    rfl

/-- Claim C9: `reset_cached_search_results` swallows every failure of the
cache client: it always returns normally (with a log line), and in
particular a client whose connection fails makes the body error while the
wrapped routine still returns normally. -/
theorem claim_C9_cache_failures_swallowed :
    (∀ (c : CacheClient) (p : Option (List String)) (rim : Bool),
        (reset_cached_search_results c p rim).isOk = true)
    ∧ resetCachedSearchResultsBody cFail none false
        = Except.error "connection refused"
    ∧ reset_cached_search_results cFail none false
        = Except.ok "Unable to reset cached search results: connection refused" := by
  refine ⟨?_, rfl, rfl⟩
  intro c p rim
  unfold reset_cached_search_results
  cases resetCachedSearchResultsBody c p rim <;> rfl

/-! ## Guid-rename and nested-field lemmas -/

theorem guidKeyFor_ne_guid (name : String) : guidKeyFor name ≠ "guid" := by
  intro h
  have hd := congrArg String.data h
  simp only [guidKeyFor, String.toList] at hd
  have hlen := congrArg List.length hd
  simp only [List.length_append, List.length_take, List.length_map,
    List.length_drop] at hlen
  have h4 : ("Guid".data).length = 4 := rfl
  have h4' : ("guid".data).length = 4 := rfl
  rw [h4, h4'] at hlen
  have h1 : (name.data.take 1).map Char.toLower = [] := by
    apply List.eq_nil_of_length_eq_zero
    simp only [List.length_map, List.length_take]
    omega
  have h2 : name.data.drop 1 = [] := by
    apply List.eq_nil_of_length_eq_zero
    simp only [List.length_drop]
    omega
  rw [h1, h2] at hd
  simp at hd

theorem guidKeyFor_ne_createdBy (name : String) : guidKeyFor name ≠ "createdBy" := by
  intro h
  have hd := congrArg String.data h
  simp only [guidKeyFor, String.toList] at hd
  have hlast := congrArg List.getLast? hd
  simp [List.getLast?_append] at hlast

theorem dictGet_applyCreatedBy_ne (render : Obj → Option Obj) (r : Record)
    (k : String) (h : k ≠ "createdBy") :
    dictGet (applyCreatedBy render r) k = dictGet r k := by
  unfold applyCreatedBy
  by_cases hc : recTruthy r "createdBy" = true
  · simp [hc, dictGet_dictSet, h]
  · simp [hc]

theorem foldl_nestedHop_none (fs : List String) :
    fs.foldl nestedHop none = none := by
  induction fs with
  | nil => rfl
  | cons f t ih => exact ih

/-- Claim C2: for a model whose projected record carries a truthy generic
`guid` entry, the output of the generic projection holds the guid under the
type-specific key (or the caller-supplied `guid_key`) and has no generic
`guid` key; the rename applies to the record after field projection and
nested-field resolution, followed only by the created-by display
substitution. -/
theorem claim_C2_guid_rename (cls : ModelClass) (user_is_staff : Bool)
    (add : List String) (nested : List NestedField) (guid_key : Option String)
    (render : Obj → Option Obj) (m : Obj) (r : Record) (g : Obj)
    (hproj : projectAndNest cls user_is_staff add nested m = Except.ok r)
    (hg : dictGet r "guid" = some (some g))
    (hgt : objTruthy g = true)
    (hk : guid_key = none
      ∨ (guid_key.getD (guidKeyFor cls.name) ≠ "guid"
          ∧ guid_key.getD (guidKeyFor cls.name) ≠ "createdBy")) :
    _get_json_for_models_row cls user_is_staff add nested guid_key render none m
      = Except.ok (applyCreatedBy render (applyGuidRename cls guid_key r))
    ∧ dictGet (applyCreatedBy render (applyGuidRename cls guid_key r))
        (guid_key.getD (guidKeyFor cls.name)) = some (some g)
    ∧ dictGet (applyCreatedBy render (applyGuidRename cls guid_key r)) "guid"
        = none := by
  have hk1 : guid_key.getD (guidKeyFor cls.name) ≠ "guid" := by
    rcases hk with h | ⟨h1, _⟩
    · subst h
      exact guidKeyFor_ne_guid cls.name
    · exact h1
  have hk2 : guid_key.getD (guidKeyFor cls.name) ≠ "createdBy" := by
    rcases hk with h | ⟨_, h2⟩
    · subst h
      exact guidKeyFor_ne_createdBy cls.name
    · exact h2
  have hrt : recTruthy r "guid" = true := by
    unfold recTruthy
    rw [hg]
    exact hgt
  have hren : applyGuidRename cls guid_key r
      = dictSet (dictRemove r "guid") (guid_key.getD (guidKeyFor cls.name))
          (some g) := by
    unfold applyGuidRename
    rw [hrt, hg]
    rfl
  refine ⟨?_, ?_, ?_⟩
  · unfold _get_json_for_models_row
    rw [hproj]
    rfl
  · rw [dictGet_applyCreatedBy_ne _ _ _ hk2, hren, dictGet_dictSet]
    simp
  · rw [dictGet_applyCreatedBy_ne _ _ _ (by decide), hren, dictGet_dictSet,
      if_neg (fun h => hk1 h.symm), dictGet_dictRemove, if_pos rfl]

/-- Witness for claim C2: projecting a Family model with a truthy guid
yields the `familyGuid` key holding the guid. -/
theorem claim_C2_witness :
    dictGet (applyCreatedBy (fun _ => none)
        (applyGuidRename clsFam none [("guid", some (Obj.leaf "F000001"))]))
      "familyGuid" = some (some (Obj.leaf "F000001")) :=
  (claim_C2_guid_rename clsFam false [] [] none (fun _ => none) mFam
    [("guid", some (Obj.leaf "F000001"))] (Obj.leaf "F000001")
    rfl rfl rfl (Or.inl rfl)).2.1

/-- Claim C3: an absent hop in a dotted relationship traversal (a null
intermediate value, or a related-object access that raises DoesNotExist)
makes the resolved nested value null without any exception escaping the
resolver, and an individual whose mother/father foreign key is null (as
left by the SET_NULL deletion of the referenced individual) gets null
maternalGuid and paternalGuid without raising. -/
theorem claim_C3_absent_hop_resolves_null :
    (∀ fs : List String, fs.foldl nestedHop none = none)
    ∧ (∀ (o : Obj) (f : String), objTruthy o = true →
        getattrE o f = Except.error () → nestedHop (some o) f = none)
    ∧ (∀ (m : Obj) (pre : List String) (f : String) (post : List String),
        nestedHop (pre.foldl nestedHop (some m)) f = none →
        resolveNestedField m
          { fields := pre ++ f :: post, value := none, key := none } = none)
    ∧ (∀ (loads : String → Option Obj) (sg : Obj → Option Obj) (flag : Bool)
        (r : Record) (ind : Obj) (ph dn iid : Option Obj),
        dictGet r "mother" = some none → dictGet r "father" = some none →
        dictGet r "phenotipsData" = some ph →
        dictGet r "displayName" = some dn →
        dictGet r "individualId" = some iid →
        ((individuals_process_result loads sg flag r ind).toOption.map
            (fun out => (dictGet out "maternalGuid", dictGet out "paternalGuid")))
          = some (some none, some none)) := by
  refine ⟨foldl_nestedHop_none, ?_, ?_, ?_⟩
  · intro o f h1 h2
    simp [nestedHop, h1, h2]
  · intro m pre f post h
    unfold resolveNestedField
    simp only [optTruthy, Bool.false_eq_true, if_false]
    rw [List.foldl_append, List.foldl_cons, h]
    exact foldl_nestedHop_none post
  · intro loads sg flag r ind ph dn iid hm hf hph hdn hiid
    have e4 : dictGet (dictRemove r "mother") "father" = some none := by
      rw [dictGet_dictRemove, if_neg (by decide), hf]
    have e1 : dictGet (dictRemove (dictRemove r "mother") "father")
        "phenotipsData" = some ph := by
      rw [dictGet_dictRemove, if_neg (by decide), dictGet_dictRemove,
        if_neg (by decide), hph]
    have e2 : dictGet (dictRemove (dictRemove r "mother") "father")
        "displayName" = some dn := by
      rw [dictGet_dictRemove, if_neg (by decide), dictGet_dictRemove,
        if_neg (by decide), hdn]
    have e3 : dictGet (dictRemove (dictRemove r "mother") "father")
        "individualId" = some iid := by
      rw [dictGet_dictRemove, if_neg (by decide), dictGet_dictRemove,
        if_neg (by decide), hiid]
    unfold individuals_process_result
    rw [hm]
    simp only [Option.getD_some, e4, e1, e2, e3]
    cases flag <;>
      · simp only [guidIfTruthy, individualIdIfTruthy, optTruthy,
          Except.toOption, Option.map_eq_some']
        exact ⟨_, rfl, by simp [dictGet_dictSet]⟩

/-- Witness for claim C3: a record with null mother and father entries
resolves to null maternalGuid and paternalGuid without an exception. -/
theorem claim_C3_witness :
    ((individuals_process_result loads0 sg0 false r3 ind3).toOption.map
        (fun out => (dictGet out "maternalGuid", dictGet out "paternalGuid")))
      = some (some none, some none) :=
  (claim_C3_absent_hop_resolves_null.2.2.2) loads0 sg0 false r3 ind3
    none (some (Obj.leaf "")) (some (Obj.leaf "I1")) rfl rfl rfl rfl rfl

/-! ## Grouping-loop lemmas -/

theorem annStep_keys (upd : String → VariantJson → VariantJson) (ag : String)
    (st : List (String × VariantJson) × List String) (vg : String) :
    ((annStep upd ag st vg).1).map Prod.fst = st.1.map Prod.fst := by
  unfold annStep
  by_cases h : (dictGet st.1 vg).isSome = true
  · have hcomp : (Prod.fst ∘ fun p : String × VariantJson =>
        if p.1 = vg then (p.1, upd ag p.2) else p) = Prod.fst := by
      funext p
      by_cases hp : p.1 = vg <;> simp [hp, Function.comp]
    simp [h, List.map_map, hcomp]
  · simp [h]

theorem annStep_lookup (upd : String → VariantJson → VariantJson) (ag : String)
    (st : List (String × VariantJson) × List String) (vg g : String) :
    dictGet (annStep upd ag st vg).1 g
      = if g = vg then (dictGet st.1 g).map (upd ag) else dictGet st.1 g := by
  unfold annStep
  by_cases h : (dictGet st.1 vg).isSome = true
  · simp only [h, if_true]
    exact dictGet_map_update st.1 vg (upd ag) g
  · simp only [h, Bool.false_eq_true, if_false]
    by_cases hg : g = vg
    · subst hg
      cases hdg : dictGet st.1 g with
      | none => simp [hdg]
      | some w =>
        rw [hdg] at h
        simp at h
    · simp [hg]

theorem annStep_snd (upd : String → VariantJson → VariantJson) (ag : String)
    (st : List (String × VariantJson) × List String) (vg : String) :
    (annStep upd ag st vg).2
      = if (dictGet st.1 vg).isSome then st.2 else st.2 ++ [vg] := by
  unfold annStep
  by_cases h : (dictGet st.1 vg).isSome = true <;> simp [h]

theorem innerFold_keys (upd : String → VariantJson → VariantJson) (ag : String) :
    ∀ (vgs : List String) (st : List (String × VariantJson) × List String),
    ((vgs.foldl (annStep upd ag) st).1).map Prod.fst = st.1.map Prod.fst := by
  intro vgs
  induction vgs with
  | nil => intro st; rfl
  | cons vg t ih =>
    intro st
    rw [List.foldl_cons, ih (annStep upd ag st vg), annStep_keys]

theorem innerFold_lookup (upd : String → VariantJson → VariantJson) (ag : String) :
    ∀ (vgs : List String), vgs.Nodup →
    ∀ (st : List (String × VariantJson) × List String) (g : String),
    dictGet ((vgs.foldl (annStep upd ag) st).1) g
      = if g ∈ vgs then (dictGet st.1 g).map (upd ag) else dictGet st.1 g := by
  intro vgs
  induction vgs with
  | nil => intro _ st g; simp
  | cons vg t ih =>
    intro hnd st g
    have hvg : vg ∉ t := (List.nodup_cons.mp hnd).1
    rw [List.foldl_cons, ih (List.nodup_cons.mp hnd).2 (annStep upd ag st vg) g]
    by_cases hg : g = vg
    · subst hg
      rw [if_neg (fun hc => hvg hc), annStep_lookup, if_pos rfl,
        if_pos (List.mem_cons_self _ _)]
    · rw [annStep_lookup, if_neg hg]
      by_cases hmem : g ∈ t
      · rw [if_pos hmem, if_pos (List.mem_cons_of_mem _ hmem)]
      · rw [if_neg hmem, if_neg (by simp [List.mem_cons, hg, hmem])]

theorem innerFold_snd (upd : String → VariantJson → VariantJson) (ag : String) :
    ∀ (vgs : List String) (st : List (String × VariantJson) × List String),
    (vgs.foldl (annStep upd ag) st).2
      = st.2 ++ vgs.filter (fun vg => !(dictGet st.1 vg).isSome) := by
  intro vgs
  induction vgs with
  | nil => intro st; simp
  | cons vg t ih =>
    intro st
    rw [List.foldl_cons, ih (annStep upd ag st vg)]
    have hpred : (fun w => !(dictGet (annStep upd ag st vg).1 w).isSome)
        = (fun w => !(dictGet st.1 w).isSome) := by
      funext w
      rw [annStep_lookup]
      by_cases hw : w = vg
      · subst hw
        cases hdg : dictGet st.1 w <;> simp [hdg]
      · rw [if_neg hw]
    rw [hpred, annStep_snd]
    by_cases h : (dictGet st.1 vg).isSome = true
    · rw [if_pos h, List.filter_cons]
      simp [h]
    · rw [if_neg h, List.filter_cons]
      simp only [h, Bool.not_false, if_true, Bool.false_eq_true]
      rw [List.append_assoc]
      rfl

theorem groupAnnGuids_cons (upd : String → VariantJson → VariantJson)
    (a : String × List String) (t : List (String × List String))
    (st : List (String × VariantJson) × List String) :
    groupAnnGuids upd (a :: t) st
      = groupAnnGuids upd t (a.2.foldl (annStep upd a.1) st) :=
  rfl

theorem groupAnnGuids_keys (upd : String → VariantJson → VariantJson) :
    ∀ (anns : List (String × List String))
      (st : List (String × VariantJson) × List String),
    ((groupAnnGuids upd anns st).1).map Prod.fst = st.1.map Prod.fst := by
  intro anns
  induction anns with
  | nil => intro st; rfl
  | cons a t ih =>
    intro st
    rw [groupAnnGuids_cons, ih, innerFold_keys]

theorem groupAnnGuids_lookup (upd : String → VariantJson → VariantJson) :
    ∀ (anns : List (String × List String)), (∀ a ∈ anns, a.2.Nodup) →
    ∀ (st : List (String × VariantJson) × List String) (g : String),
    dictGet ((groupAnnGuids upd anns st).1) g
      = (dictGet st.1 g).map (fun v =>
          ((anns.filter (fun a => decide (g ∈ a.2))).map Prod.fst).foldl
            (fun v ag => upd ag v) v) := by
  intro anns
  induction anns with
  | nil =>
    intro _ st g
    cases hdg : dictGet st.1 g <;> simp [groupAnnGuids, hdg]
  | cons a t ih =>
    intro hnd st g
    rw [groupAnnGuids_cons,
      ih (fun x hx => hnd x (List.mem_cons_of_mem _ hx)) _ g,
      innerFold_lookup upd a.1 a.2 (hnd a (List.mem_cons_self _ _)) st g,
      List.filter_cons]
    by_cases hmem : g ∈ a.2
    · rw [if_pos hmem, if_pos (by simpa using hmem)]
      simp only [List.map_cons, List.foldl_cons]
      cases hdg : dictGet st.1 g <;> simp [hdg]
    · rw [if_neg hmem, if_neg (by simpa using hmem)]

theorem groupAnnGuids_snd (upd : String → VariantJson → VariantJson) :
    ∀ (anns : List (String × List String))
      (st : List (String × VariantJson) × List String),
    (groupAnnGuids upd anns st).2
      = st.2 ++ anns.flatMap
          (fun a => a.2.filter (fun vg => !(dictGet st.1 vg).isSome)) := by
  intro anns
  induction anns with
  | nil => intro st; simp [groupAnnGuids]
  | cons a t ih =>
    intro st
    rw [groupAnnGuids_cons, ih, innerFold_snd]
    have hkeys := innerFold_keys upd a.1 a.2 st
    have hpred : (fun vg => !(dictGet ((a.2.foldl (annStep upd a.1) st).1) vg).isSome)
        = (fun vg => !(dictGet st.1 vg).isSome) := by
      funext w
      have h1 := dictGet_isSome_iff_mem_keys ((a.2.foldl (annStep upd a.1) st).1) w
      have h2 := dictGet_isSome_iff_mem_keys st.1 w
      rw [hkeys] at h1
      by_cases hw : w ∈ st.1.map Prod.fst
      · rw [h1.mpr hw, h2.mpr hw]
      · have g1 : (dictGet ((a.2.foldl (annStep upd a.1) st).1) w).isSome = false := by
          cases hc : (dictGet ((a.2.foldl (annStep upd a.1) st).1) w).isSome
          · rfl
          · exact absurd (h1.mp hc) hw
        have g2 : (dictGet st.1 w).isSome = false := by
          cases hc : (dictGet st.1 w).isSome
          · rfl
          · exact absurd (h2.mp hc) hw
        rw [g1, g2]
    rw [hpred, List.flatMap_cons, List.append_assoc]

/-! ## Aggregator decomposition lemmas -/

theorem annotatedState_eq (db : DB) (svs : List SavedVariant) :
    annotatedState db svs
      = groupAnnGuids appendNoteGuid
          ((fetchedNotes db (svs.map (fun v => v.id))).map
            (fun n => (n.noteGuid, n.variantGuids)))
          (groupAnnGuids appendFunctionalDataGuid
            ((fetchedFunctionalData db (svs.map (fun v => v.id))).map
              (fun t => (t.tagGuid, t.variantGuids)))
            (groupAnnGuids appendTagGuid
              ((fetchedTags db (svs.map (fun v => v.id))).map
                (fun t => (t.tagGuid, t.variantGuids)))
              (initialVariantsByGuid svs, []))) :=
  rfl

theorem initialVariantsByGuid_keys (svs : List SavedVariant) :
    (initialVariantsByGuid svs).map Prod.fst = svs.map (fun v => v.guid) := by
  unfold initialVariantsByGuid get_json_for_saved_variants
  simp [List.map_map, Function.comp]

theorem initialVariantsByGuid_lookup_empty (svs : List SavedVariant)
    (g : String) (v : VariantJson)
    (h : dictGet (initialVariantsByGuid svs) g = some v) :
    v.tagGuids = [] ∧ v.functionalDataGuids = [] ∧ v.noteGuids = [] := by
  have hm := dictGet_mem _ _ _ h
  unfold initialVariantsByGuid at hm
  rcases List.mem_map.mp hm with ⟨b, _, hb⟩
  have hv : initVariantJson b = v := congrArg Prod.snd hb
  rw [← hv]
  exact ⟨rfl, rfl, rfl⟩

theorem variantGuidsFor_nodup (db : DB) (ids : List Nat)
    (h : (db.savedVariants.map (fun v => v.guid)).Nodup) :
    (variantGuidsFor db ids).Nodup := by
  unfold variantGuidsFor
  exact ((List.filter_sublist _).map _).nodup h

theorem fetchedTags_variantGuids_nodup (db : DB) (ids : List Nat)
    (h : (db.savedVariants.map (fun v => v.guid)).Nodup) :
    ∀ tj ∈ fetchedTags db ids, tj.variantGuids.Nodup := by
  intro tj htj
  unfold fetchedTags get_json_for_variant_tags at htj
  rcases List.mem_map.mp htj with ⟨t, _, rfl⟩
  exact variantGuidsFor_nodup db _ h

theorem fetchedFunctionalData_variantGuids_nodup (db : DB) (ids : List Nat)
    (h : (db.savedVariants.map (fun v => v.guid)).Nodup) :
    ∀ tj ∈ fetchedFunctionalData db ids, tj.variantGuids.Nodup := by
  intro tj htj
  unfold fetchedFunctionalData get_json_for_variant_functional_data_tags at htj
  rcases List.mem_map.mp htj with ⟨t, _, rfl⟩
  exact variantGuidsFor_nodup db _ h

theorem fetchedNotes_variantGuids_nodup (db : DB) (ids : List Nat)
    (h : (db.savedVariants.map (fun v => v.guid)).Nodup) :
    ∀ nj ∈ fetchedNotes db ids, nj.variantGuids.Nodup := by
  intro nj hnj
  unfold fetchedNotes get_json_for_variant_notes at hnj
  rcases List.mem_map.mp hnj with ⟨n, _, rfl⟩
  exact variantGuidsFor_nodup db _ h

theorem fetchedTags_tagGuids_nodup (db : DB) (ids : List Nat)
    (h : (db.tags.map (fun t => t.guid)).Nodup) :
    ((fetchedTags db ids).map (fun t => t.tagGuid)).Nodup := by
  unfold fetchedTags get_json_for_variant_tags
  rw [List.map_map]
  exact ((List.filter_sublist _).map _).nodup h

theorem isSome_eq_of_keys_eq {κ ν : Type} [DecidableEq κ]
    {m1 m2 : List (κ × ν)} (h : m1.map Prod.fst = m2.map Prod.fst) (w : κ) :
    (dictGet m1 w).isSome = (dictGet m2 w).isSome := by
  have h1 := dictGet_isSome_iff_mem_keys m1 w
  rw [h] at h1
  have h2 := dictGet_isSome_iff_mem_keys m2 w
  by_cases hw : w ∈ m2.map Prod.fst
  · rw [h1.mpr hw, h2.mpr hw]
  · have e1 : (dictGet m1 w).isSome = false := by
      cases hc : (dictGet m1 w).isSome
      · rfl
      · exact absurd (h1.mp hc) hw
    have e2 : (dictGet m2 w).isSome = false := by
      cases hc : (dictGet m2 w).isSome
      · rfl
      · exact absurd (h2.mp hc) hw
    rw [e1, e2]

theorem annotatedState_snd_eq (db : DB) (svs : List SavedVariant) :
    (annotatedState db svs).2
      = (((fetchedTags db (svs.map (fun v => v.id))).map
            (fun t => (t.tagGuid, t.variantGuids))).flatMap
          (fun a => a.2.filter
            (fun vg => !(dictGet (initialVariantsByGuid svs) vg).isSome)))
        ++ (((fetchedFunctionalData db (svs.map (fun v => v.id))).map
            (fun t => (t.tagGuid, t.variantGuids))).flatMap
          (fun a => a.2.filter
            (fun vg => !(dictGet (initialVariantsByGuid svs) vg).isSome)))
        ++ (((fetchedNotes db (svs.map (fun v => v.id))).map
            (fun n => (n.noteGuid, n.variantGuids))).flatMap
          (fun a => a.2.filter
            (fun vg => !(dictGet (initialVariantsByGuid svs) vg).isSome))) := by
  rw [annotatedState_eq, groupAnnGuids_snd, groupAnnGuids_snd, groupAnnGuids_snd]
  have k1 : ((groupAnnGuids appendTagGuid
      ((fetchedTags db (svs.map (fun v => v.id))).map
        (fun t => (t.tagGuid, t.variantGuids)))
      (initialVariantsByGuid svs, [])).1).map Prod.fst
      = (initialVariantsByGuid svs).map Prod.fst :=
    groupAnnGuids_keys _ _ _
  have k2 : ((groupAnnGuids appendFunctionalDataGuid
      ((fetchedFunctionalData db (svs.map (fun v => v.id))).map
        (fun t => (t.tagGuid, t.variantGuids)))
      (groupAnnGuids appendTagGuid
        ((fetchedTags db (svs.map (fun v => v.id))).map
          (fun t => (t.tagGuid, t.variantGuids)))
        (initialVariantsByGuid svs, []))).1).map Prod.fst
      = (initialVariantsByGuid svs).map Prod.fst := by
    rw [groupAnnGuids_keys]
    exact k1
  have p1 : (fun vg => !(dictGet ((groupAnnGuids appendTagGuid
      ((fetchedTags db (svs.map (fun v => v.id))).map
        (fun t => (t.tagGuid, t.variantGuids)))
      (initialVariantsByGuid svs, [])).1) vg).isSome)
      = (fun vg => !(dictGet (initialVariantsByGuid svs) vg).isSome) := by
    funext w
    rw [isSome_eq_of_keys_eq k1 w]
  have p2 : (fun vg => !(dictGet ((groupAnnGuids appendFunctionalDataGuid
      ((fetchedFunctionalData db (svs.map (fun v => v.id))).map
        (fun t => (t.tagGuid, t.variantGuids)))
      (groupAnnGuids appendTagGuid
        ((fetchedTags db (svs.map (fun v => v.id))).map
          (fun t => (t.tagGuid, t.variantGuids)))
        (initialVariantsByGuid svs, []))).1) vg).isSome)
      = (fun vg => !(dictGet (initialVariantsByGuid svs) vg).isSome) := by
    funext w
    rw [isSome_eq_of_keys_eq k2 w]
  rw [p1, p2]
  simp [List.append_assoc]

theorem with_tags_false_sv (db : DB) (svs : List SavedVariant) :
    (get_json_for_saved_variants_with_tags db svs false).savedVariantsByGuid
      = ((annotatedState db svs).1).filter
          (fun p => !p.2.noteGuids.isEmpty || !p.2.tagGuids.isEmpty) :=
  rfl

theorem with_tags_true_sv (db : DB) (svs : List SavedVariant)
    (h : (annotatedState db svs).2.isEmpty = false) :
    (get_json_for_saved_variants_with_tags db svs true).savedVariantsByGuid
      = ((annotatedState db svs).1).filter
          (fun p => !p.2.noteGuids.isEmpty || !p.2.tagGuids.isEmpty)
        ++ (get_json_for_saved_variants
            (savedVariantsWithGuidIn db (annotatedState db svs).2)).map
          (fun b => (b.variantGuid, initVariantJson b)) := by
  unfold get_json_for_saved_variants_with_tags
  simp only [h, Bool.not_false, Bool.and_true, if_true]

theorem foldl_appendTagGuid (gs : List String) (v : VariantJson) :
    gs.foldl (fun v ag => appendTagGuid ag v) v
      = { v with tagGuids := v.tagGuids ++ gs } := by
  induction gs generalizing v with
  | nil => simp
  | cons g t ih =>
    rw [List.foldl_cons, ih]
    simp [appendTagGuid]

theorem foldl_appendFunctionalDataGuid_tagGuids (gs : List String)
    (v : VariantJson) :
    (gs.foldl (fun v ag => appendFunctionalDataGuid ag v) v).tagGuids
      = v.tagGuids := by
  induction gs generalizing v with
  | nil => rfl
  | cons g t ih =>
    rw [List.foldl_cons, ih]
    rfl

theorem foldl_appendNoteGuid_tagGuids (gs : List String) (v : VariantJson) :
    (gs.foldl (fun v ag => appendNoteGuid ag v) v).tagGuids = v.tagGuids := by
  induction gs generalizing v with
  | nil => rfl
  | cons g t ih =>
    rw [List.foldl_cons, ih]
    rfl

theorem filter_cond_iff (v : VariantJson) :
    ((!v.noteGuids.isEmpty || !v.tagGuids.isEmpty) = true)
      ↔ (v.tagGuids ≠ [] ∨ v.noteGuids ≠ []) := by
  cases e1 : v.noteGuids <;> cases e2 : v.tagGuids <;> simp

theorem missing_key_iff (svs : List SavedVariant) (g : String) :
    ((!(dictGet (initialVariantsByGuid svs) g).isSome) = true)
      ↔ (g ∉ svs.map (fun v => v.guid)) := by
  constructor
  · intro h hmem
    have hk : (dictGet (initialVariantsByGuid svs) g).isSome = true :=
      (dictGet_isSome_iff_mem_keys _ g).mpr
        (by rw [initialVariantsByGuid_keys]; exact hmem)
    rw [hk] at h
    simp at h
  · intro h
    cases hc : (dictGet (initialVariantsByGuid svs) g).isSome
    · rfl
    · exact absurd (by
        rw [← initialVariantsByGuid_keys]
        exact (dictGet_isSome_iff_mem_keys _ g).mp hc) h

/-- Claim C1: a grouped variant is in the default savedVariantsByGuid
exactly when it has at least one tag guid or note guid (functional data
alone does not qualify); the missing set consists exactly of the guids
referenced by a fetched tag, functional-data or note record that do not
belong to the input set; and with include_missing_variants set, every store
row whose guid is in the missing set is fetched and included with empty
annotation-guid lists. -/
theorem claim_C1_inclusion_policy (db : DB) (svs : List SavedVariant) :
    (∀ (g : String) (v : VariantJson), (g, v) ∈ (annotatedState db svs).1 →
      ((g, v) ∈ (get_json_for_saved_variants_with_tags db svs
            false).savedVariantsByGuid
        ↔ (v.tagGuids ≠ [] ∨ v.noteGuids ≠ [])))
    ∧ (∀ g : String, g ∈ (annotatedState db svs).2
        ↔ (g ∉ svs.map (fun v => v.guid)
            ∧ ((∃ t ∈ fetchedTags db (svs.map (fun v => v.id)),
                  g ∈ t.variantGuids)
              ∨ (∃ fd ∈ fetchedFunctionalData db (svs.map (fun v => v.id)),
                  g ∈ fd.variantGuids)
              ∨ (∃ n ∈ fetchedNotes db (svs.map (fun v => v.id)),
                  g ∈ n.variantGuids))))
    ∧ (∀ v : SavedVariant, v ∈ db.savedVariants →
        v.guid ∈ (annotatedState db svs).2 →
        (v.guid, initVariantJson
            { variantGuid := v.guid, variantId := v.variant_id,
              familyGuids := [v.family.guid] })
          ∈ (get_json_for_saved_variants_with_tags db svs
              true).savedVariantsByGuid) := by
  refine ⟨?_, ?_, ?_⟩
  · intro g v hgv
    rw [with_tags_false_sv]
    constructor
    · intro hmem
      exact (filter_cond_iff v).mp (List.mem_filter.mp hmem).2
    · intro hor
      exact List.mem_filter.mpr ⟨hgv, (filter_cond_iff v).mpr hor⟩
  · intro g
    rw [annotatedState_snd_eq]
    simp only [List.mem_append, List.mem_flatMap, List.mem_filter,
      List.mem_map, missing_key_iff svs g]
    constructor
    · rintro ((⟨a, ⟨t, ht, rfl⟩, hga, hkey⟩ | ⟨a, ⟨t, ht, rfl⟩, hga, hkey⟩) |
        ⟨a, ⟨t, ht, rfl⟩, hga, hkey⟩)
      · exact ⟨hkey, Or.inl ⟨t, ht, hga⟩⟩
      · exact ⟨hkey, Or.inr (Or.inl ⟨t, ht, hga⟩)⟩
      · exact ⟨hkey, Or.inr (Or.inr ⟨t, ht, hga⟩)⟩
    · rintro ⟨hkey, (⟨t, ht, hga⟩ | ⟨t, ht, hga⟩ | ⟨t, ht, hga⟩)⟩
      · exact Or.inl (Or.inl ⟨_, ⟨t, ht, rfl⟩, hga, hkey⟩)
      · exact Or.inl (Or.inr ⟨_, ⟨t, ht, rfl⟩, hga, hkey⟩)
      · exact Or.inr ⟨_, ⟨t, ht, rfl⟩, hga, hkey⟩
  · intro v hv hmiss
    have hne : (annotatedState db svs).2.isEmpty = false := by
      cases e : (annotatedState db svs).2
      · rw [e] at hmiss
        simp at hmiss
      · rfl
    rw [with_tags_true_sv db svs hne]
    apply List.mem_append_right
    apply List.mem_map.mpr
    refine ⟨(⟨v.guid, v.variant_id, [v.family.guid]⟩ : SavedVariantJson), ?_, rfl⟩
    unfold get_json_for_saved_variants
    apply List.mem_map.mpr
    refine ⟨v, ?_, rfl⟩
    unfold savedVariantsWithGuidIn
    apply List.mem_filter.mpr
    refine ⟨hv, ?_⟩
    simpa using hmiss

/-- Witness for claim C1: a store row referenced by a fetched tag but
absent from the input set is included, with empty annotation lists, when
missing variants are requested. -/
theorem claim_C1_witness :
    ("SVM", initVariantJson
        { variantGuid := "SVM", variantId := "2-2000-C-T",
          familyGuids := ["F2"] })
      ∈ (get_json_for_saved_variants_with_tags dbW [sv1]
          true).savedVariantsByGuid :=
  (claim_C1_inclusion_policy dbW [sv1]).2.2 svM (by decide) (by decide)

/-- Claim C5: each fetched tag's variantGuids is a subset of the union of
variant guids of the tags intersecting the input set, and no tag guid is
appended twice to any variant's tagGuids list (every grouped variant's
tagGuids list is duplicate-free), under the guid-uniqueness invariants of
the store. -/
theorem claim_C5_no_duplicate_tag_guids (db : DB) (svs : List SavedVariant)
    (hdbv : (db.savedVariants.map (fun v => v.guid)).Nodup)
    (hdbt : (db.tags.map (fun t => t.guid)).Nodup) :
    (∀ tj ∈ fetchedTags db (svs.map (fun v => v.id)),
      tj.variantGuids ⊆ (fetchedTags db (svs.map (fun v => v.id))).flatMap
        (fun t => t.variantGuids))
    ∧ (∀ (g : String) (v : VariantJson),
        dictGet ((annotatedState db svs).1) g = some v → v.tagGuids.Nodup) := by
  constructor
  · intro tj htj x hx
    exact List.mem_flatMap.mpr ⟨tj, htj, hx⟩
  · intro g v hv
    have hT : ∀ a ∈ (fetchedTags db (svs.map (fun v => v.id))).map
        (fun t => (t.tagGuid, t.variantGuids)), a.2.Nodup := by
      intro a ha
      rcases List.mem_map.mp ha with ⟨t, ht, rfl⟩
      exact fetchedTags_variantGuids_nodup db _ hdbv t ht
    have hF : ∀ a ∈ (fetchedFunctionalData db (svs.map (fun v => v.id))).map
        (fun t => (t.tagGuid, t.variantGuids)), a.2.Nodup := by
      intro a ha
      rcases List.mem_map.mp ha with ⟨t, ht, rfl⟩
      exact fetchedFunctionalData_variantGuids_nodup db _ hdbv t ht
    have hN : ∀ a ∈ (fetchedNotes db (svs.map (fun v => v.id))).map
        (fun n => (n.noteGuid, n.variantGuids)), a.2.Nodup := by
      intro a ha
      rcases List.mem_map.mp ha with ⟨n, hn, rfl⟩
      exact fetchedNotes_variantGuids_nodup db _ hdbv n hn
    rw [annotatedState_eq] at hv
    rw [groupAnnGuids_lookup _ _ hN _ g, groupAnnGuids_lookup _ _ hF _ g,
      groupAnnGuids_lookup _ _ hT _ g] at hv
    cases hdg : dictGet (initialVariantsByGuid svs) g with
    | none =>
      rw [show dictGet ((initialVariantsByGuid svs, ([] : List String)).1) g
          = none from hdg] at hv
      simp at hv
    | some v0 =>
      rw [show dictGet ((initialVariantsByGuid svs, ([] : List String)).1) g
          = some v0 from hdg] at hv
      simp only [Option.map_some'] at hv
      have hveq := Option.some.inj hv
      rw [← hveq, foldl_appendNoteGuid_tagGuids,
        foldl_appendFunctionalDataGuid_tagGuids, foldl_appendTagGuid]
      have h0 := (initialVariantsByGuid_lookup_empty svs g v0 hdg).1
      simp only [h0, List.nil_append]
      have hsub : ((((fetchedTags db (svs.map (fun v => v.id))).map
          (fun t => (t.tagGuid, t.variantGuids))).filter
            (fun a => decide (g ∈ a.2))).map Prod.fst).Sublist
          (((fetchedTags db (svs.map (fun v => v.id))).map
            (fun t => (t.tagGuid, t.variantGuids))).map Prod.fst) :=
        (List.filter_sublist _).map _
      have htg : ((((fetchedTags db (svs.map (fun v => v.id))).map
          (fun t => (t.tagGuid, t.variantGuids)))).map Prod.fst).Nodup := by
        rw [List.map_map]
        exact fetchedTags_tagGuids_nodup db _ hdbt
      exact hsub.nodup htg

/-- Witness for claim C5: in the witness store the grouped entry for the
input variant carries a duplicate-free tag-guid list. -/
theorem claim_C5_witness : vJsonW.tagGuids.Nodup :=
  (claim_C5_no_duplicate_tag_guids dbW [sv1] (by decide) (by decide)).2
    "SV1" _ (by decide)

/-- Claim C10: the variantTagsByGuid, variantNotesByGuid and
variantFunctionalDataByGuid mappings contain every fetched annotation
record regardless of the saved-variant filtering; in particular a variant
carrying only functional data has its functional-data record present while
the variant itself is absent from savedVariantsByGuid. -/
theorem claim_C10_annotations_retained :
    (∀ (db : DB) (svs : List SavedVariant) (inc : Bool),
      (∀ tj ∈ fetchedTags db (svs.map (fun v => v.id)),
        (tj.tagGuid, tj) ∈ (get_json_for_saved_variants_with_tags db svs
            inc).variantTagsByGuid)
      ∧ (∀ nj ∈ fetchedNotes db (svs.map (fun v => v.id)),
        (nj.noteGuid, nj) ∈ (get_json_for_saved_variants_with_tags db svs
            inc).variantNotesByGuid)
      ∧ (∀ fj ∈ fetchedFunctionalData db (svs.map (fun v => v.id)),
        (fj.tagGuid, fj) ∈ (get_json_for_saved_variants_with_tags db svs
            inc).variantFunctionalDataByGuid))
    ∧ (get_json_for_saved_variants_with_tags dbFD [sv1]
        false).savedVariantsByGuid = []
    ∧ dictGet (get_json_for_saved_variants_with_tags dbFD [sv1]
          false).variantFunctionalDataByGuid "FD1" = some fdJson1 := by
  refine ⟨?_, by decide, by decide⟩
  intro db svs inc
  refine ⟨?_, ?_, ?_⟩
  · intro tj htj
    exact List.mem_map.mpr ⟨tj, htj, rfl⟩
  · intro nj hnj
    exact List.mem_map.mpr ⟨nj, hnj, rfl⟩
  · intro fj hfj
    exact List.mem_map.mpr ⟨fj, hfj, rfl⟩

/-- Witness for claim C10: the functional-data record of a variant with no
tags or notes is present in the response mapping. -/
theorem claim_C10_witness :
    ("FD1", fdJson1)
      ∈ (get_json_for_saved_variants_with_tags dbFD [sv1]
          false).variantFunctionalDataByGuid :=
  ((claim_C10_annotations_retained.1 dbFD [sv1] false).2.2 fdJson1 (by decide))

/-- Counterexample for claim C4: with three SavedVariant rows sharing one
variant id across two families and a single tag attached to the first row
only, the two untagged rows are absent from savedVariantsByGuid even when
include_missing_variants is set -- refuting the reading that untagged rows
are present whenever the flag is set. -/
theorem claim_C4_counterexample :
    dictGet (get_json_for_saved_variants_with_tags db4 [sv1, sv2, sv3]
        true).savedVariantsByGuid "SV2" = none
    ∧ dictGet (get_json_for_saved_variants_with_tags db4 [sv1, sv2, sv3]
        true).savedVariantsByGuid "SV3" = none := by
  decide

/-- Claim C4 (amended): in the three-row scenario the aggregated response
has exactly one variantTagsByGuid entry; the savedVariantsByGuid entries
are per-row, each listing only its own family's guid (so no entry ever
lists both families); untagged rows are absent by default and remain absent
with include_missing_variants unless referenced by a fetched tag, note or
functional-data record. -/
theorem claim_C4_shared_variant_scenario :
    ((get_json_for_saved_variants_with_tags db4 [sv1, sv2, sv3]
        false).variantTagsByGuid).map Prod.fst = ["VT1"]
    ∧ (get_json_for_saved_variants_with_tags db4 [sv1, sv2, sv3]
        false).savedVariantsByGuid
      = [("SV1", vJson4)]
    ∧ (∀ p ∈ (get_json_for_saved_variants_with_tags db4 [sv1, sv2, sv3]
        true).savedVariantsByGuid, p.2.familyGuids.length = 1)
    ∧ dictGet (get_json_for_saved_variants_with_tags db4 [sv1, sv2, sv3]
        false).savedVariantsByGuid "SV2" = none
    ∧ dictGet (get_json_for_saved_variants_with_tags db4 [sv1, sv2, sv3]
        false).savedVariantsByGuid "SV3" = none := by
  decide
